import Mathlib

/-!
Shallow embedding of the tenant-matching engine (src/matching_engine.py).

Python floats are modelled as rationals (ℚ); all arithmetic performed by the
engine (absolute values, division by the constant scale width, clamping,
weighted sums, rounding to two decimals) is exact on the values involved.
`round(x, 2)` is modelled by `round2`, the stable Python `list.sort` with
`reverse=True` by `List.mergeSort` with a ≥-comparator (both are stable and
sort descending), and the Python slice `candidates[:top_n]` (including its
negative-index semantics) by `pySliceTo` over an integer `top_n`.
-/

set_option maxRecDepth 100000

namespace Matching

/-- SCALE_MIN constant from the config section. -/
def SCALE_MIN : ℚ := 1

/-- SCALE_MAX constant from the config section. -/
def SCALE_MAX : ℚ := 5

/-- The fixed 10-attribute set, in configuration declaration order. -/
def FEATURES : List String :=
  ["cleanliness_level",
   "noise_tolerance",
   "sleep_schedule",
   "routine_structure",
   "WFH_frequency",
   "sociability_level",
   "guest_tolerance",
   "privacy_need",
   "conflict_style",
   "shared_spaces_usage"]

/-- The WEIGHTS dict, read through `weights.get(f, 1.0)` (default 1.0). -/
def WEIGHTS (f : String) : ℚ :=
  if f = "cleanliness_level" then 13/10
  else if f = "noise_tolerance" then 13/10
  else if f = "sleep_schedule" then 12/10
  else if f = "routine_structure" then 1
  else if f = "WFH_frequency" then 8/10
  else if f = "sociability_level" then 1
  else if f = "guest_tolerance" then 1
  else if f = "privacy_need" then 11/10
  else if f = "conflict_style" then 9/10
  else if f = "shared_spaces_usage" then 9/10
  else 1

/-- The SCORING_MODE dict, read through `SCORING_MODE.get(feature, "similarity")`. -/
def SCORING_MODE (f : String) : String :=
  if f = "cleanliness_level" then "similarity"
  else if f = "noise_tolerance" then "similarity"
  else if f = "sleep_schedule" then "similarity"
  else if f = "routine_structure" then "similarity"
  else if f = "WFH_frequency" then "similarity"
  else if f = "sociability_level" then "complementarity"
  else if f = "guest_tolerance" then "similarity"
  else if f = "privacy_need" then "similarity"
  else if f = "conflict_style" then "similarity"
  else if f = "shared_spaces_usage" then "complementarity"
  else "similarity"

/-- `clamp01(x) = max(0.0, min(1.0, x))`. -/
def clamp01 (x : ℚ) : ℚ := max 0 (min 1 x)

/-- `similarity_score`, generalised over the scale bounds it reads from the
module globals: `max_dist = smax - smin`; if `max_dist <= 0` return 1.0,
else `clamp01(1 - |a-b| / max_dist)`. -/
def similarity_score_gen (smin smax a b : ℚ) : ℚ :=
  let max_dist := smax - smin
  if max_dist ≤ 0 then 1
  else clamp01 (1 - |a - b| / max_dist)

/-- `similarity_score(a, b)` at the configured scale 1..5. -/
def similarity_score (a b : ℚ) : ℚ :=
  similarity_score_gen SCALE_MIN SCALE_MAX a b

/-- `complementarity_score`, generalised over the scale bounds:
`target_sum = smin + smax`, `max_dev = smax - smin`; if `max_dev <= 0`
return 1.0, else `clamp01(1 - |a+b - target_sum| / max_dev)`. -/
def complementarity_score_gen (smin smax a b : ℚ) : ℚ :=
  let target_sum := smin + smax
  let max_dev := smax - smin
  if max_dev ≤ 0 then 1
  else clamp01 (1 - |a + b - target_sum| / max_dev)

/-- `complementarity_score(a, b)` at the configured scale 1..5. -/
def complementarity_score (a b : ℚ) : ℚ :=
  complementarity_score_gen SCALE_MIN SCALE_MAX a b

/-- `feature_score(feature, a, b)`: dispatch on the configured mode,
returning the score and the mode string actually used. -/
def feature_score (f : String) (a b : ℚ) : ℚ × String :=
  let mode := SCORING_MODE f
  if mode = "complementarity" then (complementarity_score a b, "complementarity")
  else (similarity_score a b, "similarity")

/-- Python `str.capitalize()`: first character uppercased, the rest lowercased. -/
def pyCapitalize (s : String) : String :=
  match s.data with
  | [] => ""
  | c :: rest => ⟨c.toUpper :: rest.map Char.toLower⟩

/-- `prettify_feature_name(f) = f.replace("_", " ").capitalize()`. -/
def prettify_feature_name (f : String) : String :=
  pyCapitalize ⟨f.data.map (fun c => if c = '_' then ' ' else c)⟩

/-- Python `round(x, 2)`: round to the nearest multiple of 1/100. -/
def round2 (q : ℚ) : ℚ := (round (q * 100) : ℤ) / 100

/-- Python `f"{x:.2f}"`: fixed-point rendering with two decimals. -/
def format2 (q : ℚ) : String :=
  let c : ℤ := round (q * 100)
  let n : ℕ := c.natAbs
  let sign := if c < 0 then "-" else ""
  let frac := n % 100
  sign ++ toString (n / 100) ++ "." ++ (if frac < 10 then "0" else "") ++ toString frac

/-- Rendering of a raw attribute value inside an f-string (the values are
integers in practice, rendered without a decimal point). -/
def ratStr (q : ℚ) : String :=
  if q.den = 1 then toString q.num else toString q.num ++ "/" ++ toString q.den

/-- One row of the input profile table: `user_id`, `tenant_label`, and the
numeric attribute columns accessed as `row[f]` for `f` in `FEATURES`. -/
structure Profile where
  user_id : ℤ
  tenant_label : String
  attr : String → ℚ

/-- A per-feature detail tuple `(f, score, weight, mode)` as built in
`compute_top_matches`. -/
abbrev Detail := String × ℚ × ℚ × String

/-- The weighted contribution `score * weight` used as the sort key for
drivers (`lambda x: x[1] * x[2]`). -/
def contribution (d : Detail) : ℚ := d.2.1 * d.2.2.1

/-- `total_weight = sum(weights.get(f, 1.0) for f in features)`. -/
def total_weight : ℚ := (FEATURES.map WEIGHTS).sum

/-- The `per_feature_details` list built for the pair `(a, b)`, in feature
order, before sorting. -/
def pairDetails (a b : Profile) : List Detail :=
  FEATURES.map (fun f =>
    (f, (feature_score f (a.attr f) (b.attr f)).1, WEIGHTS f,
     (feature_score f (a.attr f) (b.attr f)).2))

/-- `weighted_sum`: the accumulated `w * sc` over all features. -/
def weighted_sum (a b : Profile) : ℚ :=
  (FEATURES.map (fun f => WEIGHTS f * (feature_score f (a.attr f) (b.attr f)).1)).sum

/-- `compat = (weighted_sum / total_weight) * 100.0` (before rounding). -/
def compat (a b : Profile) : ℚ := weighted_sum a b / total_weight * 100

/-- Comparator for `per_feature_details.sort(key=lambda x: x[1] * x[2],
reverse=True)`: descending by weighted contribution. -/
def detLE (x y : Detail) : Bool := decide (contribution y ≤ contribution x)

/-- The in-place descending stable sort of the detail list. -/
def sortDetails (l : List Detail) : List Detail := l.mergeSort detLE

/-- Comparator for `candidates.sort(key=lambda x: x[1], reverse=True)`:
descending by compatibility percentage. -/
def candLE (x y : ℕ × ℚ × List Detail) : Bool := decide (y.2.1 ≤ x.2.1)

/-- The descending stable sort of the candidate list. -/
def rankCandidates (l : List (ℕ × ℚ × List Detail)) : List (ℕ × ℚ × List Detail) :=
  l.mergeSort candLE

/-- The candidate list built for entity `a`: every record `b` (with its
enumeration index `j`) whose `user_id` differs from that of `a`, paired with
the compatibility of the pair and its sorted detail list. -/
def candidatesFor (a : Profile) (records : List Profile) : List (ℕ × ℚ × List Detail) :=
  (records.enum.filter (fun jb => jb.2.user_id ≠ a.user_id)).map
    (fun jb => (jb.1, compat a jb.2, sortDetails (pairDetails a jb.2)))

/-- Python slice `l[:n]` for an arbitrary integer `n` (negative `n` keeps
`max(0, len(l) - |n|)` leading elements). -/
def pySliceTo {α : Type} (l : List α) (n : ℤ) : List α :=
  if 0 ≤ n then l.take n.toNat else l.take (l.length - (-n).toNat)

/-- One output row of the match table. -/
structure MatchRow where
  user_id : ℤ
  tenant_label : String
  match_rank : ℕ
  match_user_id : ℤ
  match_tenant_label : String
  compatibility_score : ℚ
  top_drivers : String
  explanation_short : String
  explanation_long : String
  top_driver_values : String
deriving DecidableEq

/-- One driver phrase `f"{f}(mode={mode}, score={sc:.2f}, w={w:.2f})"`. -/
def renderDriver (d : Detail) : String :=
  d.1 ++ "(mode=" ++ d.2.2.2 ++ ", score=" ++ format2 d.2.1 ++ ", w=" ++ format2 d.2.2.1 ++ ")"

/-- The output-row construction in the emit loop of `compute_top_matches`,
for entity `a`, matched record `b`, 1-based `rank`, unrounded compatibility
`compat_score` and the (already sorted) detail list `details`. -/
def buildRow (a b : Profile) (rank : ℕ) (compat_score : ℚ) (details : List Detail) : MatchRow :=
  let top3 := details.take 3
  let driver_parts := top3.map renderDriver
  let driver_pretty := top3.map (fun d => prettify_feature_name d.1)
  { user_id := a.user_id
    tenant_label := a.tenant_label
    match_rank := rank
    match_user_id := b.user_id
    match_tenant_label := b.tenant_label
    compatibility_score := round2 compat_score
    top_drivers := String.intercalate "; " driver_parts
    explanation_short :=
      "High compatibility driven by " ++ String.intercalate ", " driver_pretty ++ "."
    explanation_long :=
      a.tenant_label ++ " matches well with " ++ b.tenant_label ++ " (score " ++
      format2 compat_score ++ "%). Top drivers: " ++ String.intercalate ", " driver_pretty ++
      ". Note: similarity rewards close values, while complementarity rewards balanced pairs " ++
      "(on a 1..5 scale, best when a+b is about 6)."
    top_driver_values :=
      String.intercalate " | "
        (top3.map (fun d =>
          d.1 ++ ": " ++ ratStr (a.attr d.1) ++ " vs " ++ ratStr (b.attr d.1) ++
          " (" ++ d.2.2.2 ++ ", " ++ format2 d.2.1 ++ ")")) }

/-- Row construction from an `enumerate(top, start=1)` element: rank is the
0-based index plus one, and `b = records[j_idx]` is looked up by index
(the index is always in range by construction of the candidate list). -/
def buildFun (a : Profile) (records : List Profile) (rc : ℕ × ℕ × ℚ × List Detail) : MatchRow :=
  buildRow a (records.getD rc.2.1 a) (rc.1 + 1) rc.2.2.1 rc.2.2.2

/-- The rows emitted for one entity `a`: sort the candidates descending by
compatibility, truncate with `candidates[:top_n]`, and emit one row per
surviving candidate with ranks 1, 2, ... . -/
def rowsFor (a : Profile) (records : List Profile) (top_n : ℤ) : List MatchRow :=
  (pySliceTo (rankCandidates (candidatesFor a records)) top_n).enum.map (buildFun a records)

/-- The rows for entity `a` with no truncation: the full descending-
compatibility ordering over all other entities, ranked 1, 2, ... . -/
def allRowsFor (a : Profile) (records : List Profile) : List MatchRow :=
  (rankCandidates (candidatesFor a records)).enum.map (buildFun a records)

/-- `compute_top_matches(profiles, top_n)`: the concatenated per-entity row
lists, iterating entities in input order. -/
def compute_top_matches (profiles : List Profile) (top_n : ℤ) : List MatchRow :=
  profiles.flatMap (fun a => rowsFor a profiles top_n)

/-! ### Helper lemmas on the scorers -/

lemma clamp01_nonneg (x : ℚ) : 0 ≤ clamp01 x := le_max_left 0 _

lemma clamp01_le_one (x : ℚ) : clamp01 x ≤ 1 :=
  max_le (by norm_num) (min_le_left 1 x)

lemma clamp01_eq_one_iff (x : ℚ) : clamp01 x = 1 ↔ 1 ≤ x := by
  unfold clamp01
  rcases le_total 1 x with h | h
  · simp [min_eq_left h, h]
  · rw [min_eq_right h]
    constructor
    · intro hx
      rcases le_total 0 x with h0 | h0
      · rw [max_eq_right h0] at hx
        exact le_of_eq hx.symm
      · rw [max_eq_left h0] at hx
        norm_num at hx
    · intro h1
      rw [le_antisymm h h1]
      norm_num

lemma similarity_score_bounds (a b : ℚ) :
    0 ≤ similarity_score a b ∧ similarity_score a b ≤ 1 := by
  unfold similarity_score similarity_score_gen
  dsimp only
  split
  · norm_num
  · exact ⟨clamp01_nonneg _, clamp01_le_one _⟩

lemma complementarity_score_bounds (a b : ℚ) :
    0 ≤ complementarity_score a b ∧ complementarity_score a b ≤ 1 := by
  unfold complementarity_score complementarity_score_gen
  dsimp only
  split
  · norm_num
  · exact ⟨clamp01_nonneg _, clamp01_le_one _⟩

lemma feature_score_fst_bounds (f : String) (a b : ℚ) :
    0 ≤ (feature_score f a b).1 ∧ (feature_score f a b).1 ≤ 1 := by
  unfold feature_score
  dsimp only
  split
  · exact complementarity_score_bounds a b
  · exact similarity_score_bounds a b

lemma similarity_score_symm (a b : ℚ) : similarity_score a b = similarity_score b a := by
  unfold similarity_score similarity_score_gen
  rw [abs_sub_comm]

lemma complementarity_score_symm (a b : ℚ) :
    complementarity_score a b = complementarity_score b a := by
  unfold complementarity_score complementarity_score_gen
  rw [add_comm a b]

lemma feature_score_fst_symm (f : String) (a b : ℚ) :
    (feature_score f a b).1 = (feature_score f b a).1 := by
  unfold feature_score
  dsimp only
  split
  · exact complementarity_score_symm a b
  · exact similarity_score_symm a b

lemma weighted_sum_symm (a b : Profile) : weighted_sum a b = weighted_sum b a := by
  unfold weighted_sum
  congr 1
  apply List.map_congr_left
  intro f _
  rw [feature_score_fst_symm]

lemma compat_symm (a b : Profile) : compat a b = compat b a := by
  unfold compat
  rw [weighted_sum_symm]

lemma total_weight_eq : total_weight = 21/2 := by
  with_unfolding_all decide

lemma weights_pos : ∀ f ∈ FEATURES, 0 < WEIGHTS f := by
  with_unfolding_all decide

lemma weighted_sum_nonneg (a b : Profile) : 0 ≤ weighted_sum a b := by
  unfold weighted_sum
  apply List.sum_nonneg
  intro x hx
  rw [List.mem_map] at hx
  obtain ⟨f, hf, rfl⟩ := hx
  exact mul_nonneg (le_of_lt (weights_pos f hf)) (feature_score_fst_bounds f _ _).1

lemma weighted_sum_le_total (a b : Profile) : weighted_sum a b ≤ total_weight := by
  unfold weighted_sum total_weight
  apply List.sum_le_sum
  intro f hf
  calc WEIGHTS f * (feature_score f (a.attr f) (b.attr f)).1
      ≤ WEIGHTS f * 1 :=
        mul_le_mul_of_nonneg_left (feature_score_fst_bounds f _ _).2
          (le_of_lt (weights_pos f hf))
    _ = WEIGHTS f := mul_one _

lemma compat_nonneg (a b : Profile) : 0 ≤ compat a b := by
  unfold compat
  have h1 := weighted_sum_nonneg a b
  have h2 : (0:ℚ) < total_weight := by rw [total_weight_eq]; norm_num
  positivity

lemma compat_le_100 (a b : Profile) : compat a b ≤ 100 := by
  unfold compat
  have h1 := weighted_sum_le_total a b
  have h2 : (0:ℚ) < total_weight := by rw [total_weight_eq]; norm_num
  have h3 : weighted_sum a b / total_weight ≤ 1 := by
    rw [div_le_one h2]; exact h1
  nlinarith

lemma round_mono_rat {x y : ℚ} (h : x ≤ y) : round x ≤ round y := by
  rw [round_eq, round_eq]
  exact Int.floor_mono (by linarith)

lemma round2_mono {x y : ℚ} (h : x ≤ y) : round2 x ≤ round2 y := by
  unfold round2
  have hr : round (x * 100) ≤ round (y * 100) := round_mono_rat (by linarith)
  have : ((round (x * 100) : ℤ) : ℚ) ≤ ((round (y * 100) : ℤ) : ℚ) := by exact_mod_cast hr
  linarith

lemma round2_nonneg {x : ℚ} (h : 0 ≤ x) : 0 ≤ round2 x := by
  have := round2_mono h
  have h0 : round2 0 = 0 := by
    unfold round2
    norm_num
  linarith [h0 ▸ this]

lemma round2_le_100 {x : ℚ} (h : x ≤ 100) : round2 x ≤ 100 := by
  have := round2_mono h
  have h100 : round2 100 = 100 := by
    unfold round2
    rw [show ((100:ℚ) * 100) = ((10000 : ℤ) : ℚ) by norm_num, round_intCast]
    norm_num
  linarith [h100 ▸ this]

/-! ### Helper lemmas on enumeration, filtering and sorting -/

lemma enumFrom_take {α : Type} : ∀ (l : List α) (n k : ℕ),
    (l.take k).enumFrom n = (l.enumFrom n).take k := by
  intro l
  induction l with
  | nil => intro n k; simp
  | cons x xs ih =>
    intro n k
    cases k with
    | zero => simp
    | succ k => simp [List.enumFrom_cons, ih]

lemma length_filter_enumFrom {α : Type} (p : α → Bool) (q : ℕ × α → Bool)
    (hq : ∀ i x, q (i, x) = p x) : ∀ (n : ℕ) (l : List α),
    ((l.enumFrom n).filter q).length = (l.filter p).length := by
  intro n l
  induction l generalizing n with
  | nil => simp
  | cons x xs ih =>
    rw [List.enumFrom_cons, List.filter_cons, List.filter_cons, hq]
    cases hp : p x <;> simp [hp, ih]

lemma pairwise_enumFrom {α : Type} {R : α → α → Prop} {l : List α} (h : l.Pairwise R) :
    ∀ n, (l.enumFrom n).Pairwise (fun x y => R x.2 y.2) := by
  induction h with
  | nil => intro n; simp
  | cons hx _ ih =>
    intro n
    rw [List.enumFrom_cons]
    refine List.Pairwise.cons ?_ (ih _)
    intro y hy
    apply hx
    have : y.2 ∈ List.map Prod.snd (List.enumFrom (n + 1) _) := List.mem_map_of_mem Prod.snd hy
    rwa [List.enumFrom_map_snd] at this

lemma length_filter_ne_of_nodup {α : Type} (key : α → ℤ) (k : ℤ) :
    ∀ (l : List α), (l.map key).Nodup → k ∈ l.map key →
      (l.filter (fun b => decide (key b ≠ k))).length = l.length - 1 := by
  intro l
  induction l with
  | nil => simp
  | cons x xs ih =>
    intro hnd hk
    rw [List.map_cons] at hnd hk
    obtain ⟨hx, hnd'⟩ := List.nodup_cons.mp hnd
    rw [List.filter_cons]
    by_cases hxk : key x = k
    · have hall : ∀ b ∈ xs, key b ≠ k := by
        intro b hb he
        exact hx (by rw [hxk, ← he]; exact List.mem_map_of_mem key hb)
      have hfx : (decide (key x ≠ k)) = false := by simp [hxk]
      rw [hfx]
      simp only [Bool.false_eq_true, if_false]
      have : xs.filter (fun b => decide (key b ≠ k)) = xs := by
        rw [List.filter_eq_self]
        intro b hb
        simp [hall b hb]
      rw [this]
      simp
    · have hk' : k ∈ xs.map key := by
        rcases List.mem_cons.mp hk with he | h
        · exact absurd he.symm hxk
        · exact h
      have hlen : 1 ≤ xs.length := by
        rcases List.mem_map.mp hk' with ⟨b, hb, _⟩
        exact List.length_pos.mpr (List.ne_nil_of_mem hb)
      have hfx : (decide (key x ≠ k)) = true := by simp [hxk]
      rw [hfx]
      simp only [if_true]
      rw [List.length_cons, ih hnd' hk', List.length_cons]
      omega

/-! ### Engine-level lemmas -/

lemma length_candidatesFor (a : Profile) (profiles : List Profile)
    (hnodup : (profiles.map Profile.user_id).Nodup) (ha : a ∈ profiles) :
    (candidatesFor a profiles).length = profiles.length - 1 := by
  unfold candidatesFor
  rw [List.length_map]
  rw [show profiles.enum = profiles.enumFrom 0 from rfl]
  rw [length_filter_enumFrom (fun b => decide (b.user_id ≠ a.user_id)) _ (fun i x => rfl)]
  exact length_filter_ne_of_nodup Profile.user_id a.user_id profiles hnodup
    (List.mem_map_of_mem Profile.user_id ha)

lemma length_rankCandidates (l : List (ℕ × ℚ × List Detail)) :
    (rankCandidates l).length = l.length := by
  unfold rankCandidates
  exact List.length_mergeSort l

lemma candLE_trans : ∀ x y z, candLE x y → candLE y z → candLE x z := by
  intro x y z h1 h2
  exact decide_eq_true (le_trans (of_decide_eq_true h2) (of_decide_eq_true h1))

lemma candLE_total : ∀ x y, candLE x y || candLE y x := by
  intro x y
  unfold candLE
  rcases le_total x.2.1 y.2.1 with h | h <;> simp [h]

lemma detLE_trans : ∀ x y z, detLE x y → detLE y z → detLE x z := by
  intro x y z h1 h2
  exact decide_eq_true (le_trans (of_decide_eq_true h2) (of_decide_eq_true h1))

lemma detLE_total : ∀ x y, detLE x y || detLE y x := by
  intro x y
  unfold detLE
  rcases le_total (contribution x) (contribution y) with h | h <;> simp [h]

lemma rankCandidates_sorted (l : List (ℕ × ℚ × List Detail)) :
    (rankCandidates l).Pairwise (fun x y => y.2.1 ≤ x.2.1) := by
  have h := List.sorted_mergeSort candLE_trans candLE_total l
  exact h.imp (fun hxy => of_decide_eq_true hxy)

lemma sortDetails_sorted (l : List Detail) :
    (sortDetails l).Pairwise (fun x y => contribution y ≤ contribution x) := by
  have h := List.sorted_mergeSort detLE_trans detLE_total l
  exact h.imp (fun hxy => of_decide_eq_true hxy)

lemma length_sortDetails (l : List Detail) : (sortDetails l).length = l.length := by
  unfold sortDetails
  exact List.length_mergeSort l

lemma length_pairDetails (a b : Profile) : (pairDetails a b).length = FEATURES.length := by
  unfold pairDetails
  exact List.length_map _ _

/-- Taking a prefix of the ranked candidates and building rows commutes with
building all rows and taking a prefix. -/
lemma rows_take (a : Profile) (profiles : List Profile) (t : ℕ) :
    ((rankCandidates (candidatesFor a profiles)).take t).enum.map (buildFun a profiles)
      = (allRowsFor a profiles).take t := by
  unfold allRowsFor
  have henum : ((rankCandidates (candidatesFor a profiles)).take t).enum
      = (rankCandidates (candidatesFor a profiles)).enum.take t :=
    enumFrom_take (rankCandidates (candidatesFor a profiles)) 0 t
  rw [henum, List.map_take]

lemma rowsFor_nonneg_eq_take (a : Profile) (profiles : List Profile) (top_n : ℤ)
    (h : 0 ≤ top_n) :
    rowsFor a profiles top_n = (allRowsFor a profiles).take top_n.toNat := by
  unfold rowsFor pySliceTo
  rw [if_pos h]
  exact rows_take a profiles top_n.toNat

lemma rowsFor_neg_eq_take (a : Profile) (profiles : List Profile) (top_n : ℤ)
    (h : top_n < 0) :
    rowsFor a profiles top_n
      = (allRowsFor a profiles).take
          ((rankCandidates (candidatesFor a profiles)).length - (-top_n).toNat) := by
  unfold rowsFor pySliceTo
  rw [if_neg (by omega)]
  exact rows_take a profiles _

/-- Every row emitted for entity `a` is built by `buildRow` from `a` and a
record of the table whose id differs from the id of `a`. -/
lemma mem_rowsFor_structure {a : Profile} {profiles : List Profile} {top_n : ℤ}
    {row : MatchRow} (hrow : row ∈ rowsFor a profiles top_n) :
    ∃ b rank, b ∈ profiles ∧ b.user_id ≠ a.user_id ∧
      row = buildRow a b rank (compat a b) (sortDetails (pairDetails a b)) := by
  unfold rowsFor at hrow
  rw [List.mem_map] at hrow
  obtain ⟨rc, hrc, hbuild⟩ := hrow
  have hmem : rc.2 ∈ pySliceTo (rankCandidates (candidatesFor a profiles)) top_n := by
    have h1 := List.mem_enum_iff_getElem?.mp hrc
    exact List.getElem?_mem h1
  have hmem2 : rc.2 ∈ rankCandidates (candidatesFor a profiles) := by
    unfold pySliceTo at hmem
    split at hmem <;> exact List.mem_of_mem_take hmem
  have hmem3 : rc.2 ∈ candidatesFor a profiles := by
    unfold rankCandidates at hmem2
    exact List.mem_mergeSort.mp hmem2
  unfold candidatesFor at hmem3
  rw [List.mem_map] at hmem3
  obtain ⟨jb, hjb, heq⟩ := hmem3
  rw [List.mem_filter] at hjb
  obtain ⟨hjb_enum, hne⟩ := hjb
  have hne' : jb.2.user_id ≠ a.user_id := of_decide_eq_true hne
  have hget : profiles[jb.1]? = some jb.2 := List.mem_enum_iff_getElem?.mp hjb_enum
  have hb_mem : jb.2 ∈ profiles := List.getElem?_mem hget
  refine ⟨jb.2, rc.1 + 1, hb_mem, hne', ?_⟩
  rw [← hbuild]
  unfold buildFun
  have hgetD : profiles.getD jb.1 a = jb.2 := by
    rw [List.getD_eq_getElem?_getD, hget]
    rfl
  rw [← heq]
  simp only [hgetD]

/-- Every row of `compute_top_matches` is built by `buildRow` from two
profiles of the table with distinct ids. -/
lemma mem_structure {profiles : List Profile} {top_n : ℤ} {row : MatchRow}
    (h : row ∈ compute_top_matches profiles top_n) :
    ∃ a b rank, a ∈ profiles ∧ b ∈ profiles ∧ b.user_id ≠ a.user_id ∧
      row = buildRow a b rank (compat a b) (sortDetails (pairDetails a b)) := by
  unfold compute_top_matches at h
  rw [List.mem_flatMap] at h
  obtain ⟨a, ha, hrow⟩ := h
  obtain ⟨b, rank, hb, hne, heq⟩ := mem_rowsFor_structure hrow
  exact ⟨a, b, rank, ha, hb, hne, heq⟩

/-- The rank column of the rows built for one entity counts 1, 2, ... . -/
lemma map_rank_rowsFor (a : Profile) (profiles : List Profile) (top_n : ℤ) :
    (rowsFor a profiles top_n).map MatchRow.match_rank
      = List.range' 1 (rowsFor a profiles top_n).length := by
  unfold rowsFor
  rw [List.map_map, List.length_map]
  have hcomp : MatchRow.match_rank ∘ buildFun a profiles = fun rc => rc.1 + 1 := by
    funext rc
    rfl
  rw [hcomp]
  have h1 : (fun (rc : ℕ × ℕ × ℚ × List Detail) => rc.1 + 1)
      = (fun n => n + 1) ∘ Prod.fst := rfl
  rw [h1, ← List.map_map]
  rw [show (pySliceTo (rankCandidates (candidatesFor a profiles)) top_n).enum
      = (pySliceTo (rankCandidates (candidatesFor a profiles)) top_n).enumFrom 0 from rfl]
  rw [List.enumFrom_map_fst, List.enumFrom_length]
  have h2 : (fun n => n + 1) = (fun n => 1 + n) := by
    funext n
    omega
  rw [h2, List.map_add_range']

/-- Constant attribute table used for concrete witnesses: every attribute 3. -/
def attrs3 : String → ℚ := fun _ => 3

/-- Demo profile A. -/
def pA : Profile := ⟨1, "Tenant_001", attrs3⟩

/-- Demo profile B. -/
def pB : Profile := ⟨2, "Tenant_002", attrs3⟩

/-- Two-entity demo table. -/
def demoProfiles : List Profile := [pA, pB]

/-- Placeholder row for safe indexing in closed statements. -/
def defRow : MatchRow :=
  { user_id := 0, tenant_label := "", match_rank := 0, match_user_id := 0,
    match_tenant_label := "", compatibility_score := 0, top_drivers := "",
    explanation_short := "", explanation_long := "", top_driver_values := "" }

/-- First emitted row of the demo run. -/
def demoRow : MatchRow := (compute_top_matches demoProfiles 2).getD 0 defRow

/-! ### Claim theorems -/

/-- C3: `similarity_score` and `complementarity_score` are symmetric in their
two arguments for all attribute values in `[SCALE_MIN, SCALE_MAX]`, and
consequently the aggregated compatibility percentage computed for the ordered
pair `(A, B)` equals the one computed for `(B, A)`, for every pair of distinct
entities (both before and after the 2-decimal rounding). -/
theorem claim_C3 :
    (∀ a b : ℚ, SCALE_MIN ≤ a → a ≤ SCALE_MAX → SCALE_MIN ≤ b → b ≤ SCALE_MAX →
      similarity_score a b = similarity_score b a ∧
      complementarity_score a b = complementarity_score b a) ∧
    (∀ A B : Profile, A.user_id ≠ B.user_id →
      compat A B = compat B A ∧ round2 (compat A B) = round2 (compat B A)) := by
  constructor
  · intro a b _ _ _ _
    exact ⟨similarity_score_symm a b, complementarity_score_symm a b⟩
  · intro A B _
    refine ⟨compat_symm A B, ?_⟩
    rw [compat_symm A B]

/-- Witness for C3 at concrete inputs: attribute values 1 and 2, and the
two demo profiles. -/
theorem claim_C3_witness :
    (similarity_score 1 2 = similarity_score 2 1 ∧
      complementarity_score 1 2 = complementarity_score 2 1) ∧
    (compat pA pB = compat pB pA ∧ round2 (compat pA pB) = round2 (compat pB pA)) := by
  refine ⟨claim_C3.1 1 2 ?_ ?_ ?_ ?_, claim_C3.2 pA pB ?_⟩ <;> with_unfolding_all decide

/-- C5: for all `a, b` in `[SCALE_MIN, SCALE_MAX]`, `similarity_score a b`
equals `1 - |a-b| / (SCALE_MAX - SCALE_MIN)` clamped to `[0, 1]`; in
particular `similarity_score a a = 1` for every valid `a` and
`similarity_score SCALE_MIN SCALE_MAX = 0`; in the degenerate case
`scale_max = scale_min` the result is defined as 1 with no division. -/
theorem claim_C5 :
    (∀ a b : ℚ, SCALE_MIN ≤ a → a ≤ SCALE_MAX → SCALE_MIN ≤ b → b ≤ SCALE_MAX →
      similarity_score a b = clamp01 (1 - |a - b| / (SCALE_MAX - SCALE_MIN))) ∧
    (∀ a : ℚ, SCALE_MIN ≤ a → a ≤ SCALE_MAX → similarity_score a a = 1) ∧
    similarity_score SCALE_MIN SCALE_MAX = 0 ∧
    (∀ smin smax a b : ℚ, smax = smin → similarity_score_gen smin smax a b = 1) := by
  have hpos : ¬(SCALE_MAX - SCALE_MIN ≤ 0) := by norm_num [SCALE_MIN, SCALE_MAX]
  refine ⟨?_, ?_, ?_, ?_⟩
  · intro a b _ _ _ _
    unfold similarity_score similarity_score_gen
    dsimp only
    rw [if_neg hpos]
  · intro a _ _
    unfold similarity_score similarity_score_gen
    dsimp only
    rw [if_neg hpos]
    rw [sub_self, abs_zero, zero_div, sub_zero]
    unfold clamp01
    norm_num
  · with_unfolding_all decide
  · intro smin smax a b he
    unfold similarity_score_gen
    dsimp only
    rw [if_pos (by rw [he, sub_self])]

/-- Witness for C5 at concrete inputs: values 2 and 3 on the 1..5 scale,
and the degenerate scale 4..4. -/
theorem claim_C5_witness :
    similarity_score 2 3 = clamp01 (1 - |(2:ℚ) - 3| / (SCALE_MAX - SCALE_MIN)) ∧
    similarity_score 2 2 = 1 ∧
    similarity_score SCALE_MIN SCALE_MAX = 0 ∧
    similarity_score_gen 4 4 1 5 = 1 := by
  refine ⟨claim_C5.1 2 3 ?_ ?_ ?_ ?_, claim_C5.2.1 2 ?_ ?_, claim_C5.2.2.1,
    claim_C5.2.2.2 4 4 1 5 rfl⟩ <;> norm_num [SCALE_MIN, SCALE_MAX]

/-- C6: for all `a, b` in `[SCALE_MIN, SCALE_MAX]`, `complementarity_score a b`
equals `1 - |a + b - (SCALE_MIN + SCALE_MAX)| / (SCALE_MAX - SCALE_MIN)`
clamped to `[0, 1]`; it equals 1 exactly when `a + b = SCALE_MIN + SCALE_MAX`,
and equals 0 for `(SCALE_MIN, SCALE_MIN)` and for `(SCALE_MAX, SCALE_MAX)`. -/
theorem claim_C6 :
    (∀ a b : ℚ, SCALE_MIN ≤ a → a ≤ SCALE_MAX → SCALE_MIN ≤ b → b ≤ SCALE_MAX →
      complementarity_score a b
        = clamp01 (1 - |a + b - (SCALE_MIN + SCALE_MAX)| / (SCALE_MAX - SCALE_MIN))) ∧
    (∀ a b : ℚ, SCALE_MIN ≤ a → a ≤ SCALE_MAX → SCALE_MIN ≤ b → b ≤ SCALE_MAX →
      (complementarity_score a b = 1 ↔ a + b = SCALE_MIN + SCALE_MAX)) ∧
    complementarity_score SCALE_MIN SCALE_MIN = 0 ∧
    complementarity_score SCALE_MAX SCALE_MAX = 0 := by
  have hpos : ¬(SCALE_MAX - SCALE_MIN ≤ 0) := by norm_num [SCALE_MIN, SCALE_MAX]
  have hform : ∀ a b : ℚ, complementarity_score a b
      = clamp01 (1 - |a + b - (SCALE_MIN + SCALE_MAX)| / (SCALE_MAX - SCALE_MIN)) := by
    intro a b
    unfold complementarity_score complementarity_score_gen
    dsimp only
    rw [if_neg hpos]
  refine ⟨fun a b _ _ _ _ => hform a b, ?_, ?_, ?_⟩
  · intro a b _ _ _ _
    rw [hform a b, clamp01_eq_one_iff]
    have h4 : SCALE_MAX - SCALE_MIN = 4 := by norm_num [SCALE_MIN, SCALE_MAX]
    rw [h4]
    constructor
    · intro h
      have habs : |a + b - (SCALE_MIN + SCALE_MAX)| ≤ 0 := by linarith
      have := abs_nonneg (a + b - (SCALE_MIN + SCALE_MAX))
      have hz : |a + b - (SCALE_MIN + SCALE_MAX)| = 0 := le_antisymm habs this
      have := abs_eq_zero.mp hz
      linarith
    · intro h
      rw [show a + b - (SCALE_MIN + SCALE_MAX) = 0 by linarith, abs_zero]
      norm_num
  · with_unfolding_all decide
  · with_unfolding_all decide

/-- Witness for C6 at concrete inputs: the pair (2, 4) sums to the target 6. -/
theorem claim_C6_witness :
    complementarity_score 2 4
      = clamp01 (1 - |(2:ℚ) + 4 - (SCALE_MIN + SCALE_MAX)| / (SCALE_MAX - SCALE_MIN)) ∧
    (complementarity_score 2 4 = 1 ↔ (2:ℚ) + 4 = SCALE_MIN + SCALE_MAX) ∧
    complementarity_score SCALE_MIN SCALE_MIN = 0 ∧
    complementarity_score SCALE_MAX SCALE_MAX = 0 := by
  refine ⟨claim_C6.1 2 4 ?_ ?_ ?_ ?_, claim_C6.2.1 2 4 ?_ ?_ ?_ ?_,
    claim_C6.2.2.1, claim_C6.2.2.2⟩ <;> norm_num [SCALE_MIN, SCALE_MAX]

/-- C9: for every pair of rational attribute values, including values outside
`[SCALE_MIN, SCALE_MAX]`, the per-attribute scorers return a value in `[0, 1]`
(out-of-range inputs are handled by the clamping inside the scorers). The
scorers and the engine are total Lean functions, modelling that no error is
raised on out-of-range values. -/
theorem claim_C9 :
    ∀ a b : ℚ, (0 ≤ similarity_score a b ∧ similarity_score a b ≤ 1) ∧
      (0 ≤ complementarity_score a b ∧ complementarity_score a b ≤ 1) ∧
      ∀ f : String, 0 ≤ (feature_score f a b).1 ∧ (feature_score f a b).1 ≤ 1 := by
  intro a b
  exact ⟨similarity_score_bounds a b, complementarity_score_bounds a b,
    fun f => feature_score_fst_bounds f a b⟩

/-- C1: for every profile table with pairwise-distinct `user_id` values,
every entity `a` of the table and every `top_n ≥ 1`, the ranking step of
`compute_top_matches` emits exactly `min top_n (n_entities - 1)` match rows
for `a`; the candidate carrying the own `user_id` of `a` is excluded (by id
equality,
before sorting), and `a` never appears as its own match in the emitted rows. -/
theorem claim_C1 (profiles : List Profile) (top_n : ℤ) (a : Profile)
    (hnodup : (profiles.map Profile.user_id).Nodup) (ha : a ∈ profiles)
    (htop : 1 ≤ top_n) :
    (rowsFor a profiles top_n).length = min top_n.toNat (profiles.length - 1) ∧
    (∀ c ∈ candidatesFor a profiles, (profiles.getD c.1 a).user_id ≠ a.user_id) ∧
    (∀ row ∈ rowsFor a profiles top_n,
      row.user_id = a.user_id ∧ row.match_user_id ≠ a.user_id) := by
  refine ⟨?_, ?_, ?_⟩
  · unfold rowsFor
    rw [List.length_map, List.enum_length]
    unfold pySliceTo
    rw [if_pos (by omega : (0:ℤ) ≤ top_n)]
    rw [List.length_take, length_rankCandidates,
      length_candidatesFor a profiles hnodup ha]
  · intro c hc
    unfold candidatesFor at hc
    rw [List.mem_map] at hc
    obtain ⟨jb, hjb, heq⟩ := hc
    rw [List.mem_filter] at hjb
    obtain ⟨hjb_enum, hne⟩ := hjb
    have hget : profiles[jb.1]? = some jb.2 := List.mem_enum_iff_getElem?.mp hjb_enum
    have hgetD : profiles.getD jb.1 a = jb.2 := by
      rw [List.getD_eq_getElem?_getD, hget]
      rfl
    have hc1 : c.1 = jb.1 := by rw [← heq]
    rw [hc1, hgetD]
    exact of_decide_eq_true hne
  · intro row hrow
    obtain ⟨b, rank, _, hne, heq⟩ := mem_rowsFor_structure hrow
    subst heq
    exact ⟨rfl, hne⟩

/-- Witness for C1: the two-entity demo table with `top_n = 1`. -/
theorem claim_C1_witness :
    (rowsFor pA demoProfiles 1).length = min (1:ℤ).toNat (demoProfiles.length - 1) ∧
    (∀ c ∈ candidatesFor pA demoProfiles,
      (demoProfiles.getD c.1 pA).user_id ≠ pA.user_id) ∧
    (∀ row ∈ rowsFor pA demoProfiles 1,
      row.user_id = pA.user_id ∧ row.match_user_id ≠ pA.user_id) :=
  claim_C1 demoProfiles 1 pA (by with_unfolding_all decide)
    (by simp [demoProfiles]) (by decide)

/-- C2: for every entity, the rows emitted by the ranking step are sorted
non-increasing by compatibility score, they are the `top_n`-prefix of the
full descending-compatibility ordering over all other entities, and their
`match_rank` column runs 1..k in that order. -/
theorem claim_C2 (profiles : List Profile) (top_n : ℤ) (a : Profile)
    (htop : 0 ≤ top_n) :
    (rowsFor a profiles top_n).Pairwise
      (fun r s => s.compatibility_score ≤ r.compatibility_score) ∧
    rowsFor a profiles top_n = (allRowsFor a profiles).take top_n.toNat ∧
    (rowsFor a profiles top_n).map MatchRow.match_rank
      = List.range' 1 (rowsFor a profiles top_n).length := by
  refine ⟨?_, rowsFor_nonneg_eq_take a profiles top_n htop,
    map_rank_rowsFor a profiles top_n⟩
  unfold rowsFor
  rw [List.pairwise_map]
  have h1 := rankCandidates_sorted (candidatesFor a profiles)
  have h2 : (pySliceTo (rankCandidates (candidatesFor a profiles)) top_n).Pairwise
      (fun x y => y.2.1 ≤ x.2.1) := by
    unfold pySliceTo
    split <;> exact List.Pairwise.sublist (List.take_sublist _ _) h1
  have h3 := pairwise_enumFrom h2 0
  refine h3.imp ?_
  intro x y hxy
  show round2 y.2.2.1 ≤ round2 x.2.2.1
  exact round2_mono hxy

/-- Witness for C2: the two-entity demo table with `top_n = 1`. -/
theorem claim_C2_witness :
    (rowsFor pA demoProfiles 1).Pairwise
      (fun r s => s.compatibility_score ≤ r.compatibility_score) ∧
    rowsFor pA demoProfiles 1 = (allRowsFor pA demoProfiles).take (1:ℤ).toNat ∧
    (rowsFor pA demoProfiles 1).map MatchRow.match_rank
      = List.range' 1 (rowsFor pA demoProfiles 1).length :=
  claim_C2 demoProfiles 1 pA (by decide)

/-- C4: the compatibility score of every emitted row is
`round2 (weighted_sum / total_weight * 100)` for the corresponding pair of
distinct entities of the table, and it always lies in `[0, 100]`. -/
theorem claim_C4 (profiles : List Profile) (top_n : ℤ) (row : MatchRow)
    (h : row ∈ compute_top_matches profiles top_n) :
    ∃ a b, a ∈ profiles ∧ b ∈ profiles ∧ b.user_id ≠ a.user_id ∧
      row.compatibility_score = round2 (weighted_sum a b / total_weight * 100) ∧
      0 ≤ row.compatibility_score ∧ row.compatibility_score ≤ 100 := by
  obtain ⟨a, b, rank, ha, hb, hne, heq⟩ := mem_structure h
  subst heq
  refine ⟨a, b, ha, hb, hne, rfl, ?_, ?_⟩
  · show 0 ≤ round2 (compat a b)
    exact round2_nonneg (compat_nonneg a b)
  · show round2 (compat a b) ≤ 100
    exact round2_le_100 (compat_le_100 a b)

/-- Witness for C4: the first row of the demo run. -/
theorem claim_C4_witness :
    ∃ a b, a ∈ demoProfiles ∧ b ∈ demoProfiles ∧ b.user_id ≠ a.user_id ∧
      demoRow.compatibility_score = round2 (weighted_sum a b / total_weight * 100) ∧
      0 ≤ demoRow.compatibility_score ∧ demoRow.compatibility_score ≤ 100 :=
  claim_C4 demoProfiles 2 demoRow (by with_unfolding_all decide)

/-- C7: for every emitted row, `top_drivers` renders exactly the first three
elements of the contribution list re-sorted descending by weighted
contribution (score × weight), each as
`f(mode=..., score=..., w=...)` joined by `"; "`; every dropped contributor
(in particular the fourth-largest) is bounded by each of the kept three; and
with fewer than 3 contributions the take simply yields fewer phrases
(`min 3 len`), never an error. -/
theorem claim_C7 :
    (∀ (profiles : List Profile) (top_n : ℤ) (row : MatchRow),
      row ∈ compute_top_matches profiles top_n →
      ∃ a b, a ∈ profiles ∧ b ∈ profiles ∧
        (sortDetails (pairDetails a b)).Pairwise
          (fun x y => contribution y ≤ contribution x) ∧
        row.top_drivers = String.intercalate "; "
          (((sortDetails (pairDetails a b)).take 3).map renderDriver) ∧
        (∀ x ∈ (sortDetails (pairDetails a b)).take 3,
          ∀ y ∈ (sortDetails (pairDetails a b)).drop 3,
            contribution y ≤ contribution x)) ∧
    (∀ l : List Detail, ((sortDetails l).take 3).length = min 3 l.length) := by
  constructor
  · intro profiles top_n row h
    obtain ⟨a, b, rank, ha, hb, _, heq⟩ := mem_structure h
    subst heq
    refine ⟨a, b, ha, hb, sortDetails_sorted _, rfl, ?_⟩
    have hp := sortDetails_sorted (pairDetails a b)
    have hsplit := List.take_append_drop 3 (sortDetails (pairDetails a b))
    rw [← hsplit] at hp
    exact (List.pairwise_append.mp hp).2.2
  · intro l
    rw [List.length_take, length_sortDetails]

/-- Witness for C7: the first row of the demo run and its detail list. -/
theorem claim_C7_witness :
    (∃ a b, a ∈ demoProfiles ∧ b ∈ demoProfiles ∧
      (sortDetails (pairDetails a b)).Pairwise
        (fun x y => contribution y ≤ contribution x) ∧
      demoRow.top_drivers = String.intercalate "; "
        (((sortDetails (pairDetails a b)).take 3).map renderDriver) ∧
      (∀ x ∈ (sortDetails (pairDetails a b)).take 3,
        ∀ y ∈ (sortDetails (pairDetails a b)).drop 3,
          contribution y ≤ contribution x)) ∧
    ((sortDetails (pairDetails pA pB)).take 3).length = min 3 (pairDetails pA pB).length :=
  ⟨claim_C7.1 demoProfiles 2 demoRow (by with_unfolding_all decide),
   claim_C7.2 (pairDetails pA pB)⟩

/-- C8 (counterexample): on a concrete two-entity table the top-3 driver
labels are "Cleanliness level", "Noise tolerance", "Sleep schedule", and the
emitted short explanation joins all three with ", " — it is NOT the claimed
string that joins the last two labels with the word "and". -/
theorem claim_C8_counterexample :
    ((sortDetails (pairDetails pA pB)).take 3).map (fun d => prettify_feature_name d.1)
      = ["Cleanliness level", "Noise tolerance", "Sleep schedule"] ∧
    demoRow ∈ compute_top_matches demoProfiles 2 ∧
    demoRow.explanation_short
      = "High compatibility driven by Cleanliness level, Noise tolerance, Sleep schedule." ∧
    demoRow.explanation_short
      ≠ "High compatibility driven by Cleanliness level, Noise tolerance and Sleep schedule." := by
  with_unfolding_all decide

/-- C8 (amended): for every emitted match row, the short explanation is
"High compatibility driven by {labels}." where {labels} are the
human-readable labels of the top-3 drivers (underscores replaced by spaces,
first letter capitalized, remainder lowercased), all joined by ", " — the
last two labels are not joined by the word "and". -/
theorem claim_C8_amended (profiles : List Profile) (top_n : ℤ) (row : MatchRow)
    (h : row ∈ compute_top_matches profiles top_n) :
    ∃ a b, a ∈ profiles ∧ b ∈ profiles ∧
      row.explanation_short = "High compatibility driven by "
        ++ String.intercalate ", "
          (((sortDetails (pairDetails a b)).take 3).map
            (fun d => prettify_feature_name d.1))
        ++ "." := by
  obtain ⟨a, b, rank, ha, hb, _, heq⟩ := mem_structure h
  subst heq
  exact ⟨a, b, ha, hb, rfl⟩

/-- Witness for C8 (amended): the first row of the demo run. -/
theorem claim_C8_amended_witness :
    ∃ a b, a ∈ demoProfiles ∧ b ∈ demoProfiles ∧
      demoRow.explanation_short = "High compatibility driven by "
        ++ String.intercalate ", "
          (((sortDetails (pairDetails a b)).take 3).map
            (fun d => prettify_feature_name d.1))
        ++ "." :=
  claim_C8_amended demoProfiles 2 demoRow (by with_unfolding_all decide)

/-- C10: with `top_n = 0` the batch emits zero rows; with a negative `top_n`
and a duplicate-free id column, the rows emitted for each entity are the first
`max(0, (n-1) - |top_n|)` rows of its full descending ordering (Python slice
semantics of `candidates[:top_n]`; ℕ-subtraction renders the `max(0, ·)`). -/
theorem claim_C10 :
    (∀ profiles : List Profile, compute_top_matches profiles 0 = []) ∧
    (∀ (profiles : List Profile) (a : Profile) (top_n : ℤ), top_n < 0 →
      (profiles.map Profile.user_id).Nodup → a ∈ profiles →
      rowsFor a profiles top_n
        = (allRowsFor a profiles).take ((profiles.length - 1) - (-top_n).toNat) ∧
      (rowsFor a profiles top_n).length
        = (profiles.length - 1) - (-top_n).toNat) := by
  constructor
  · intro profiles
    unfold compute_top_matches
    rw [List.flatMap_eq_nil_iff]
    intro a _
    unfold rowsFor pySliceTo
    rw [if_pos le_rfl]
    simp
  · intro profiles a top_n hneg hnodup ha
    have hlen : (rankCandidates (candidatesFor a profiles)).length
        = profiles.length - 1 := by
      rw [length_rankCandidates, length_candidatesFor a profiles hnodup ha]
    have hall : (allRowsFor a profiles).length = profiles.length - 1 := by
      unfold allRowsFor
      rw [List.length_map, List.enum_length, hlen]
    constructor
    · rw [rowsFor_neg_eq_take a profiles top_n hneg, hlen]
    · rw [rowsFor_neg_eq_take a profiles top_n hneg, hlen, List.length_take, hall]
      omega

/-- Witness for C10: the demo table with `top_n = 0` and `top_n = -1`. -/
theorem claim_C10_witness :
    compute_top_matches demoProfiles 0 = [] ∧
    (rowsFor pA demoProfiles (-1)
        = (allRowsFor pA demoProfiles).take
            ((demoProfiles.length - 1) - (-(-1 : ℤ)).toNat) ∧
      (rowsFor pA demoProfiles (-1)).length
        = (demoProfiles.length - 1) - (-(-1 : ℤ)).toNat) :=
  ⟨claim_C10.1 demoProfiles,
   claim_C10.2 demoProfiles pA (-1) (by decide) (by with_unfolding_all decide)
     (by simp [demoProfiles])⟩

end Matching
